import Mathlib

/-!
Verification of the inference-layer logic of the InsightRay chest-radiograph
triage application (`src/inference.py`).  Python runtime values that flow
through the response-normalization and score-extraction helpers are modelled
by the inductive type `PyVal`; remote-service behaviour is modelled as an
explicit function from call site to outcome; Python floats are modelled as
rationals.
-/

namespace InsightRay

/-- Model of the Python runtime values reaching the inference helpers:
JSON-style data (dict, list, string, int, float, bool, None), SDK reply
objects exposing a `.response` attribute (`vobj`), and any other opaque
value (`vother`). -/
inductive PyVal where
  | vdict (entries : List (String × PyVal))
  | vlist (items : List PyVal)
  | vstr (s : String)
  | vint (n : Int)
  | vfloat (q : Rat)
  | vbool (b : Bool)
  | vnone
  | vobj (resp : PyVal)
  | vother

open PyVal

/-- Python truthiness of a modelled value (`if payload:`). -/
def truthy : PyVal → Bool
  | vdict es => !es.isEmpty
  | vlist xs => !xs.isEmpty
  | vstr s => !(s = "")
  | vint n => !(n = 0)
  | vfloat q => !(q = 0)
  | vbool b => b
  | vnone => false
  | vobj _ => true
  | vother => true

/-- `hasattr(x, "response")`: only SDK reply objects expose the attribute. -/
def hasResp : PyVal → Bool
  | vobj _ => true
  | _ => false

/-- `getattr(resp, "response", resp)`. -/
def getattrResp : PyVal → PyVal
  | vobj r => r
  | v => v

def isDict : PyVal → Bool
  | vdict _ => true
  | _ => false

def isStr : PyVal → Bool
  | vstr _ => true
  | _ => false

/-- Python `x or y` (value-returning disjunction). -/
def pyOr (x y : PyVal) : PyVal :=
  if truthy x then x else y

/-! ### Model of strict JSON decoding (`json.loads`)

A recursive-descent decoder over the character list, with fuel for
termination.  It covers the JSON grammar used by `json.loads`: null, booleans,
numbers (integer / fraction / exponent; a number without fraction or exponent
decodes to a Python int, otherwise to a float), strings with the standard
single-character escapes, arrays, and objects (later duplicate keys
overwrite earlier ones, as in CPython).  Not modelled: `\uXXXX` escapes and
the non-standard NaN/Infinity literals (no claim depends on them); decoded
floats are exact rationals. -/

def jsonWsChar (c : Char) : Bool :=
  c = ' ' || c = '\t' || c = '\n' || c = '\r'

def skipWs : List Char → List Char
  | [] => []
  | c :: cs => if jsonWsChar c then skipWs cs else c :: cs

def escChar (c : Char) : Option Char :=
  if c = '"' || c = '\\' || c = '/' then some c
  else if c = 'n' then some '\n'
  else if c = 't' then some '\t'
  else if c = 'r' then some '\r'
  else if c = 'b' then some (Char.ofNat 8)
  else if c = 'f' then some (Char.ofNat 12)
  else none

/-- Parse the body of a JSON string literal (after the opening quote). -/
def parseStrBody : List Char → List Char → Option (String × List Char)
  | acc, '"' :: rest => some (String.mk acc.reverse, rest)
  | acc, '\\' :: c :: rest =>
    match escChar c with
    | some d => parseStrBody (d :: acc) rest
    | none => none
  | _, '\\' :: [] => none
  | _, [] => none
  | acc, c :: rest => parseStrBody (c :: acc) rest

/-- Consume a run of decimal digits, returning value, digit count, rest. -/
def parseDigits : List Char → Nat → Nat → Nat × Nat × List Char
  | [], v, n => (v, n, [])
  | c :: rest, v, n =>
    if c.isDigit then parseDigits rest (v * 10 + (c.toNat - 48)) (n + 1)
    else (v, n, c :: rest)

/-- Parse a JSON number; ints without fraction/exponent become `vint`,
everything else `vfloat`. -/
def parseNumber (cs : List Char) : Option (PyVal × List Char) :=
  let neg : Bool := cs.head? = some '-'
  let cs1 : List Char := if neg then cs.tail else cs
  let leadZero : Bool := match cs1 with
    | '0' :: d :: _ => d.isDigit
    | _ => false
  let (ip, ic, cs2) := parseDigits cs1 0 0
  if ic = 0 || leadZero then none else
  let (hasFrac, fp, fc, cs3) := match cs2 with
    | '.' :: r =>
      let (fp, fc, r2) := parseDigits r 0 0
      (true, fp, fc, r2)
    | _ => (false, 0, 0, cs2)
  if hasFrac && fc = 0 then none else
  let (hasExp, eneg, ev, ec, cs4) := match cs3 with
    | 'e' :: r | 'E' :: r =>
      let (en, r1) := match r with
        | '-' :: r2 => (true, r2)
        | '+' :: r2 => (false, r2)
        | _ => (false, r)
      let (ev, ec, r2) := parseDigits r1 0 0
      (true, en, ev, ec, r2)
    | _ => (false, false, 0, 0, cs3)
  if hasExp && ec = 0 then none else
  if !hasFrac && !hasExp then
    some (vint (if neg then -(ip : Int) else (ip : Int)), cs2)
  else
    let mag : Rat := (ip : Rat) + (fp : Rat) / ((10 : Rat) ^ fc)
    let scaled : Rat :=
      if hasExp then (if eneg then mag / (10 : Rat) ^ ev else mag * (10 : Rat) ^ ev)
      else mag
    some (vfloat (if neg then -scaled else scaled), cs4)

/-- Python dict insertion `d[k] = v`: overwrite in place if the key exists,
append otherwise. -/
def dictInsert {α : Type} : List (String × α) → String → α → List (String × α)
  | [], k, v => [(k, v)]
  | (k', v') :: es, k, v =>
    if k' = k then (k, v) :: es else (k', v') :: dictInsert es k v

mutual

def parseVal : Nat → List Char → Option (PyVal × List Char)
  | 0, _ => none
  | fuel + 1, cs =>
    match skipWs cs with
    | 'n' :: 'u' :: 'l' :: 'l' :: rest => some (vnone, rest)
    | 't' :: 'r' :: 'u' :: 'e' :: rest => some (vbool true, rest)
    | 'f' :: 'a' :: 'l' :: 's' :: 'e' :: rest => some (vbool false, rest)
    | '"' :: rest => (parseStrBody [] rest).map fun p => (vstr p.1, p.2)
    | '[' :: rest =>
      (match skipWs rest with
       | ']' :: r2 => some (vlist [], r2)
       | cs2 => parseItems fuel cs2 [])
    | '{' :: rest =>
      (match skipWs rest with
       | '}' :: r2 => some (vdict [], r2)
       | cs2 => parseEntries fuel cs2 [])
    | c :: rest =>
      if c = '-' || c.isDigit then parseNumber (c :: rest) else none
    | [] => none

/-- Array elements: a value followed by `,` (more elements) or `]`. -/
def parseItems : Nat → List Char → List PyVal → Option (PyVal × List Char)
  | 0, _, _ => none
  | fuel + 1, cs, acc =>
    match parseVal fuel cs with
    | none => none
    | some (v, rest) =>
      match skipWs rest with
      | ',' :: r2 => parseItems fuel r2 (v :: acc)
      | ']' :: r2 => some (vlist (v :: acc).reverse, r2)
      | _ => none

/-- Object members: a quoted key, `:`, a value, then `,` or `}`. -/
def parseEntries : Nat → List Char → List (String × PyVal) →
    Option (PyVal × List Char)
  | 0, _, _ => none
  | fuel + 1, cs, acc =>
    match skipWs cs with
    | '"' :: rest =>
      (match parseStrBody [] rest with
       | none => none
       | some (k, r1) =>
         match skipWs r1 with
         | ':' :: r2 =>
           (match parseVal fuel r2 with
            | none => none
            | some (v, r3) =>
              match skipWs r3 with
              | ',' :: r4 => parseEntries fuel r4 (dictInsert acc k v)
              | '}' :: r4 => some (vdict (dictInsert acc k v), r4)
              | _ => none)
         | _ => none)
    | _ => none

end

/-- `json.loads` with strict semantics: the whole text must be consumed. -/
def json_loads (s : String) : Option PyVal :=
  match parseVal (2 * s.length + 2) s.data with
  | some (v, rest) => if (skipWs rest).isEmpty then some v else none
  | none => none

/-- `_to_dict` (inference.py:33-44): recurse into a `.response` attribute,
return mappings as-is, strictly JSON-decode strings (absence on failure),
absence otherwise.  Python `None` — both the failure result and a decoded
JSON null — is `vnone`. -/
def to_dict : PyVal → PyVal
  | vobj r => to_dict r
  | vdict es => vdict es
  | vstr s => (json_loads s).getD vnone
  | _ => vnone

/-! ### Score extraction (`_extract_score`, inference.py:46-54) -/

/-- `isinstance(x, (int, float))`: Python bools are ints, so they pass. -/
def isNum : PyVal → Bool
  | vint _ => true
  | vfloat _ => true
  | vbool _ => true
  | _ => false

/-- `float(x)` on a value passing the numeric test. -/
def toF : PyVal → Rat
  | vint n => (n : Rat)
  | vfloat q => q
  | vbool b => if b then 1 else 0
  | _ => 0

/-- The nested branch of `_extract_score`: a numeric "score" inside a
dict-valued "response" member. -/
def extractNested (entries : List (String × PyVal)) : Option Rat :=
  match List.lookup "response" entries with
  | some (vdict inner) =>
    (match List.lookup "score" inner with
     | some v => if isNum v then some (toF v) else none
     | _ => none)
  | _ => none

/-- `_extract_score` on a dict payload: top-level numeric "score" first,
else the nested "response" dict; a present but non-numeric top-level
"score" falls through to the nested check, as in the source. -/
def extract_score (entries : List (String × PyVal)) : Option Rat :=
  match List.lookup "score" entries with
  | some v => if isNum v then some (toF v) else extractNested entries
  | none => extractNested entries

/-- Python list membership `key in xs` where `key` is a str: true iff some
element is that string. -/
def containsStr (key : String) : List PyVal → Bool
  | [] => false
  | vstr s :: rest => s = key || containsStr key rest
  | _ :: rest => containsStr key rest

def startsWithL : List Char → List Char → Bool
  | a :: as, b :: bs => a = b && startsWithL as bs
  | [], _ => true
  | _, _ => false

/-- Python substring containment `pat in s`. -/
def containsSubL (pat : List Char) : List Char → Bool
  | [] => startsWithL pat []
  | c :: rest => startsWithL pat (c :: rest) || containsSubL pat rest

def containsSub (pat s : String) : Bool := containsSubL pat.data s.data

/-- `_extract_score` applied to an arbitrary (not necessarily dict) payload,
as `run_classifiers` does: `"score" in payload` raises `TypeError` on
non-container payloads and subscripting with a string raises on lists and
strings, so the call either raises (`.error`) or returns (`.ok`). -/
def extractChecked : PyVal → Except Unit (Option Rat)
  | vdict es => .ok (extract_score es)
  | vlist xs =>
    if containsStr "score" xs then .error ()
    else if containsStr "response" xs then .error ()
    else .ok none
  | vstr s =>
    if containsSub "score" s then .error ()
    else if containsSub "response" s then .error ()
    else .ok none
  | _ => .error ()

/-! ### Classifier and narrative runs (inference.py:89-168)

The remote call `hoppr.prompt_model` is modelled as a function from the
finding name to its outcome — either a raised exception (with its text) or
a returned reply value. -/

/-- Outcome of one remote model invocation. -/
abbrev CallResult := Except String PyVal

/-- The `try`-block body of one `run_classifiers` iteration: make the call,
normalize (`_to_dict(resp) or _to_dict(getattr(resp, "response", resp))`),
and if the payload is truthy extract a score (which may itself raise). -/
def classifierTryBody (r : CallResult) : Except Unit (Option Rat) :=
  match r with
  | .error _ => .error ()
  | .ok resp =>
    let payload := pyOr (to_dict resp) (to_dict (getattrResp resp))
    if truthy payload then extractChecked payload else .ok none

/-- One `run_classifiers` iteration after the `except Exception: continue`
handler: absence on any raise. -/
def simpleStep (r : CallResult) : Option Rat :=
  match classifierTryBody r with
  | .error _ => none
  | .ok s => s

/-- One loop iteration of `run_classifiers`: skip findings with a falsy
model id (`if not model_id: continue`), otherwise score via the guarded
call. -/
def simpleFold (call : String → CallResult) (scores : List (String × Rat))
    (nm : String × Option String) : List (String × Rat) :=
  match nm.2 with
  | none => scores
  | some mid =>
    if mid = "" then scores
    else
      match simpleStep (call nm.1) with
      | some s => dictInsert scores nm.1 s
      | none => scores

/-- `run_classifiers` (inference.py:89-106): iterate the model table, store
a score only when extraction succeeds; per-finding exceptions are
swallowed. -/
def run_classifiers (models : List (String × Option String))
    (call : String → CallResult) : List (String × Rat) :=
  models.foldl (simpleFold call) []

/-- The payload record stored for an empty-or-unparsable reply. -/
def payloadNote : PyVal := vdict [("note", vstr "empty or unparsable payload")]

/-- One loop iteration of `run_classifiers_with_payload`: the payload is
defaulted with `or {}`, extraction is guarded by `isinstance(payload,
dict)`, and a raw-payload (or error-descriptor) record is kept. -/
def payloadFold (call : String → CallResult)
    (acc : List (String × Rat) × List (String × PyVal))
    (nm : String × Option String) :
    List (String × Rat) × List (String × PyVal) :=
  match nm.2 with
  | none => acc
  | some mid =>
    if mid = "" then acc
    else
      match call nm.1 with
      | .error e => (acc.1, dictInsert acc.2 nm.1 (vdict [("error", vstr e)]))
      | .ok resp =>
        let payload :=
          pyOr (pyOr (to_dict resp) (to_dict (getattrResp resp))) (vdict [])
        let s : Option Rat :=
          match payload with
          | vdict es => extract_score es
          | _ => none
        let scores :=
          match s with
          | some q => dictInsert acc.1 nm.1 q
          | none => acc.1
        (scores,
         dictInsert acc.2 nm.1 (if truthy payload then payload else payloadNote))

/-- `run_classifiers_with_payload` (inference.py:129-147). -/
def run_classifiers_with_payload (models : List (String × Option String))
    (call : String → CallResult) :
    List (String × Rat) × List (String × PyVal) :=
  models.foldl (payloadFold call) ([], [])

/-- The dict branch of `run_vlm`: a string "findings" field at top level,
then one level under "response"; empty string when absent. -/
def vlmFindings (es : List (String × PyVal)) : String :=
  match List.lookup "findings" es with
  | some (vstr s) => s
  | _ =>
    match List.lookup "response" es with
    | some (vdict inner) =>
      (match List.lookup "findings" inner with
       | some (vstr s) => s
       | _ => "")
    | _ => ""

/-- `run_vlm` (inference.py:108-126): normalize the narrative reply and read
the findings text; empty string on a raised call, non-dict payload, or
absent field. -/
def run_vlm (call : CallResult) : String :=
  match call with
  | .error _ => ""
  | .ok resp =>
    match pyOr (to_dict resp) (to_dict (getattrResp resp)) with
    | vdict es => vlmFindings es
    | _ => ""

/-! ### Upload-signature fallback (`add_image`, inference.py:69-86) -/

/-- The three call-signature variants tried, in source order. -/
inductive UStyle where
  | positional
  | kwData
  | kwImageBytes
  deriving DecidableEq

/-- Outcome of invoking `hoppr.add_study_image` with one call style. -/
inductive UOutcome where
  | ok
  | typeError (msg : String)
  | raiseOther (msg : String)

/-- Result of `add_image` as seen by its caller. -/
inductive AddImageResult where
  | success
  | runtimeError (msg : String)
  | propagate (msg : String)
  deriving DecidableEq

def styleOrder : List UStyle := [.positional, .kwData, .kwImageBytes]

/-- `add_image`: try the three signatures in order, catching only
`TypeError` on the first two; a third `TypeError` becomes a
`RuntimeError`, any other exception propagates.  The returned list records
the attempted call styles in order. -/
def add_image (call : UStyle → UOutcome) : List UStyle × AddImageResult :=
  match call .positional with
  | .ok => ([.positional], .success)
  | .raiseOther m => ([.positional], .propagate m)
  | .typeError _ =>
    match call .kwData with
    | .ok => ([.positional, .kwData], .success)
    | .raiseOther m => ([.positional, .kwData], .propagate m)
    | .typeError _ =>
      match call .kwImageBytes with
      | .ok => (styleOrder, .success)
      | .raiseOther m => (styleOrder, .propagate m)
      | .typeError e =>
        (styleOrder,
         .runtimeError ("add_study_image signature not recognized: " ++ e))

/-! ### Urgency aggregation (inference.py:29, 171-173) -/

def CRITICAL_FINDINGS : List String := ["Pneumothorax", "Pleural Effusion"]

/-- The weight applied to one entry of the score map. -/
def weight (k : String) : Rat := if k ∈ CRITICAL_FINDINGS then 5 / 4 else 1

/-- Python `max` over a non-empty list (the `[]` case is never reached by
`compute_urgency`, which tests emptiness first). -/
def pyMax : List Rat → Rat
  | [] => 0
  | v :: vs => vs.foldl max v

/-- `compute_urgency`: the maximum weighted score, `0.0` on an empty map. -/
def compute_urgency (scores : List (String × Rat)) : Rat :=
  let vals := scores.map fun kv => weight kv.1 * kv.2
  if vals.isEmpty then 0 else pyMax vals

/-! ### Keyword extraction (`extract_keywords`, inference.py:201-218) -/

/-- A regex word character (`\w`) over the ASCII range of the narratives. -/
def wordChar (c : Char) : Bool := c.isAlpha || c.isDigit || c = '_'

/-- Match `pat` exactly at the head of `txt`, returning the rest. -/
def matchHere : List Char → List Char → Option (List Char)
  | [], rest => some rest
  | _ :: _, [] => none
  | p :: ps, c :: cs => if p = c then matchHere ps cs else none

def boundaryBefore : Option Char → Bool
  | none => true
  | some c => !wordChar c

def boundaryAfter : List Char → Bool
  | [] => true
  | c :: _ => !wordChar c

/-- `re.search(rf"\b\x7bk\x7d\b", txt)` for a pattern beginning and ending
in word characters: some occurrence of `pat` has a non-word character (or
the text edge) on both sides.  `prev` is the character before the current
position. -/
def wbSearch (pat : List Char) : Option Char → List Char → Bool
  | prev, txt =>
    (match matchHere pat txt with
     | some rest => boundaryBefore prev && boundaryAfter rest
     | none => false) ||
    (match txt with
     | [] => false
     | c :: cs => wbSearch pat (some c) cs)

/-- `str.lower()` character by character (the narratives are ASCII). -/
def lowerStr (s : String) : String := String.mk (s.data.map Char.toLower)

/-- Lexicographic (code-point) comparison of character lists: Python's
string ordering, used by `sorted`. -/
def lexLe : List Char → List Char → Bool
  | a :: as, b :: bs =>
    a.toNat < b.toNat || (a.toNat = b.toNat && lexLe as bs)
  | [], _ => true
  | _, _ => false

def strLe (a b : String) : Bool := lexLe a.data b.data

/-- The fixed clinical vocabulary of `extract_keywords`. -/
def KEYWORDS : List String :=
  ["pneumothorax", "effusion", "cardiomegaly", "opacity", "consolidation",
   "infiltrate", "interstitial", "fibrosis", "calcification",
   "pleural thickening", "aorta", "uncoiling", "enlarged", "nodule", "mass",
   "edema", "congestion"]

/-- `extract_keywords`: lower-case the narrative, keep the vocabulary terms
that match with word boundaries, deduplicate and sort. -/
def extract_keywords (vlm_text : String) : List String :=
  if vlm_text = "" then []
  else
    let lt := lowerStr vlm_text
    let hits := KEYWORDS.filter fun k => wbSearch k.data none lt.data
    List.insertionSort (fun a b => strLe a b = true) hits.dedup

/-! ### Predicates used to state the specification -/

/-- The finding → model-id table (inference.py:8-27). -/
def FINDING_MODELS : List (String × Option String) :=
  [("Atelectasis", some "mc_chestradiography_atelectasis:v1.20250828"),
   ("Cardiomegaly", some "mc_chestradiography_cardiomegaly:v1.20250828"),
   ("Pleural Effusion", some "mc_chestradiography_pleural_effusion:v1.20250828"),
   ("Pneumothorax", some "mc_chestradiography_pneumothorax:v1.20250828"),
   ("Consolidation", some "mc_chestradiography_air_space_opacity:v1.20250828"),
   ("Lung Opacity", some "mc_chestradiography_air_space_opacity:v1.20250828"),
   ("Infiltration", some "mc_chestradiography_air_space_opacity:v1.20250828"),
   ("ILD", some "mc_chestradiography_interstitial_thickening:v1.20250828"),
   ("Pulmonary Fibrosis", some "mc_chestradiography_interstitial_thickening:v1.20250828"),
   ("Aortic Enlargement", none),
   ("Calcification", none),
   ("Pleural Thickening", none),
   ("Normal", none)]

/-- The payload has a numeric top-level "score". -/
def topNum (entries : List (String × PyVal)) : Bool :=
  match List.lookup "score" entries with
  | some v => isNum v
  | none => false

/-- The payload has a numeric "score" inside a dict "response" member. -/
def nestedNum (entries : List (String × PyVal)) : Bool :=
  match List.lookup "response" entries with
  | some (vdict inner) => topNum inner
  | _ => false

/-- The payload has a string "findings" field at top level. -/
def hasFindingsStr (es : List (String × PyVal)) : Bool :=
  match List.lookup "findings" es with
  | some (vstr _) => true
  | _ => false

/-- The payload has a string "findings" field under a dict "response". -/
def hasNestedFindingsStr (es : List (String × PyVal)) : Bool :=
  match List.lookup "response" es with
  | some (vdict inner) => hasFindingsStr inner
  | _ => false

def isTE : UOutcome → Bool
  | .typeError _ => true
  | _ => false

def isOk : UOutcome → Bool
  | .ok => true
  | _ => false

def isRO : UOutcome → Bool
  | .raiseOther _ => true
  | _ => false

def isRuntimeErr : AddImageResult → Bool
  | .runtimeError _ => true
  | _ => false

/-- The upload stub of the spec's fallback scenario: the first two call
styles raise a signature-mismatch `TypeError`, the third succeeds. -/
def stubUpload : UStyle → UOutcome
  | .kwImageBytes => .ok
  | _ => .typeError "unexpected keyword argument"

/-- The scores of the critical findings in a score map. -/
def critScores (scores : List (String × Rat)) : List Rat :=
  (scores.filter fun kv => decide (kv.1 ∈ CRITICAL_FINDINGS)).map Prod.snd

/-- The scores of the non-critical findings in a score map. -/
def noncritScores (scores : List (String × Rat)) : List Rat :=
  (scores.filter fun kv => !decide (kv.1 ∈ CRITICAL_FINDINGS)).map Prod.snd

/-! ### Lemmas about `pyMax` -/

lemma le_foldl_max : ∀ (vs : List Rat) (v : Rat), v ≤ vs.foldl max v
  | [], _ => le_refl _
  | w :: ws, v => le_trans (le_max_left v w) (le_foldl_max ws (max v w))

lemma mem_le_foldl_max :
    ∀ (vs : List Rat) (v : Rat), ∀ x ∈ vs, x ≤ vs.foldl max v := by
  intro vs
  induction vs with
  | nil => intro v x hx; cases hx
  | cons w ws ih =>
    intro v x hx
    rcases List.mem_cons.mp hx with h | h
    · subst h
      exact le_trans (le_max_right v x) (le_foldl_max ws (max v x))
    · exact ih (max v w) x h

lemma foldl_max_mem :
    ∀ (vs : List Rat) (v : Rat), vs.foldl max v = v ∨ vs.foldl max v ∈ vs := by
  intro vs
  induction vs with
  | nil => intro v; exact Or.inl rfl
  | cons w ws ih =>
    intro v
    have h := ih (max v w)
    simp only [List.foldl_cons]
    rcases h with h | h
    · rcases max_choice v w with hm | hm
      · exact Or.inl (h.trans hm)
      · exact Or.inr (List.mem_cons.mpr (Or.inl (h.trans hm)))
    · exact Or.inr (List.mem_cons.mpr (Or.inr h))

lemma le_pyMax (l : List Rat) (x : Rat) (hx : x ∈ l) : x ≤ pyMax l := by
  cases l with
  | nil => cases hx
  | cons v vs =>
    rcases List.mem_cons.mp hx with h | h
    · subst h; exact le_foldl_max vs x
    · exact mem_le_foldl_max vs v x h

lemma pyMax_mem (l : List Rat) (h : l ≠ []) : pyMax l ∈ l := by
  cases l with
  | nil => exact absurd rfl h
  | cons v vs =>
    rcases foldl_max_mem vs v with h' | h'
    · exact List.mem_cons.mpr (Or.inl (by simpa [pyMax] using h'))
    · exact List.mem_cons.mpr (Or.inr (by simpa [pyMax] using h'))

/-! ### Lemmas about `dictInsert` -/

lemma lookup_dictInsert_self {α : Type} (es : List (String × α)) (k : String)
    (v : α) : List.lookup k (dictInsert es k v) = some v := by
  induction es with
  | nil => simp [dictInsert, List.lookup]
  | cons e es ih =>
    obtain ⟨a, b⟩ := e
    by_cases h : a = k
    · simp [dictInsert, h, List.lookup]
    · have hb : (k == a) = false := beq_eq_false_iff_ne.mpr fun hh => h hh.symm
      simp [dictInsert, h, List.lookup, hb, ih]

lemma lookup_dictInsert_ne {α : Type} (es : List (String × α)) (k name : String)
    (v : α) (h : k ≠ name) :
    List.lookup name (dictInsert es k v) = List.lookup name es := by
  have hb : (name == k) = false := beq_eq_false_iff_ne.mpr (Ne.symm h)
  induction es with
  | nil => simp [dictInsert, List.lookup, hb]
  | cons e es ih =>
    obtain ⟨a, b⟩ := e
    by_cases ha : a = k
    · subst ha
      simp [dictInsert, List.lookup, hb]
    · cases hnb : (name == a) <;>
        simp [dictInsert, ha, List.lookup, hnb, ih]

/-! ### Lemmas about `compute_urgency` -/

lemma weight_pos (k : String) : 0 < weight k := by
  unfold weight; split <;> norm_num

lemma weight_of_crit {k : String} (h : k ∈ CRITICAL_FINDINGS) :
    weight k = 5 / 4 := by simp [weight, h]

lemma weight_of_noncrit {k : String} (h : k ∉ CRITICAL_FINDINGS) :
    weight k = 1 := by simp [weight, h]

lemma compute_urgency_eq_pyMax (scores : List (String × Rat))
    (h : scores ≠ []) :
    compute_urgency scores = pyMax (scores.map fun kv => weight kv.1 * kv.2) := by
  have hm : (scores.map fun kv => weight kv.1 * kv.2) ≠ [] := by
    simpa using h
  simp [compute_urgency, hm]

lemma compute_urgency_is_max (scores : List (String × Rat)) (h : scores ≠ []) :
    (∃ kv ∈ scores, compute_urgency scores = weight kv.1 * kv.2) ∧
    ∀ kv ∈ scores, weight kv.1 * kv.2 ≤ compute_urgency scores := by
  rw [compute_urgency_eq_pyMax scores h]
  have hm : (scores.map fun kv => weight kv.1 * kv.2) ≠ [] := by simpa using h
  constructor
  · have := pyMax_mem _ hm
    obtain ⟨kv, hkv, heq⟩ := List.mem_map.mp this
    exact ⟨kv, hkv, heq.symm⟩
  · intro kv hkv
    exact le_pyMax _ _ (List.mem_map_of_mem _ hkv)

lemma mem_critScores {scores : List (String × Rat)} {x : Rat} :
    x ∈ critScores scores ↔
      ∃ kv, kv ∈ scores ∧ kv.1 ∈ CRITICAL_FINDINGS ∧ kv.2 = x := by
  simp [critScores, List.mem_map, List.mem_filter, and_assoc]

lemma mem_noncritScores {scores : List (String × Rat)} {x : Rat} :
    x ∈ noncritScores scores ↔
      ∃ kv, kv ∈ scores ∧ kv.1 ∉ CRITICAL_FINDINGS ∧ kv.2 = x := by
  simp [noncritScores, List.mem_map, List.mem_filter, and_assoc]

/-- **C1.** `compute_urgency` returns 0.0 on the empty map, otherwise the
maximum over entries of `weight(finding) * score(finding)` (the weight is
1.25 on the critical set, 1.0 elsewhere); for a map with at least one
critical and one non-critical finding and non-negative scores, the result
is `1.25 * max(critical scores)` when that exceeds the non-critical
maximum, else the non-critical maximum. -/
theorem compute_urgency_weighted_max :
    compute_urgency [] = 0 ∧
    (∀ scores : List (String × Rat), scores ≠ [] →
      (∃ kv ∈ scores, compute_urgency scores = weight kv.1 * kv.2) ∧
      ∀ kv ∈ scores, weight kv.1 * kv.2 ≤ compute_urgency scores) ∧
    (∀ scores : List (String × Rat), (∀ kv ∈ scores, 0 ≤ kv.2) →
      critScores scores ≠ [] → noncritScores scores ≠ [] →
      compute_urgency scores =
        if pyMax (noncritScores scores) < 5 / 4 * pyMax (critScores scores)
        then 5 / 4 * pyMax (critScores scores)
        else pyMax (noncritScores scores)) := by
  refine ⟨rfl, compute_urgency_is_max, ?_⟩
  intro scores _ hc hn
  have hs : scores ≠ [] := by
    intro h
    exact hc (by simp [critScores, h])
  obtain ⟨hex, hub⟩ := compute_urgency_is_max scores hs
  set U := compute_urgency scores with hU
  set C := pyMax (critScores scores) with hC
  set N := pyMax (noncritScores scores) with hN
  -- the two partial maxima are attained, so they bound U from below
  have hCU : 5 / 4 * C ≤ U := by
    obtain ⟨kv, hkv, hcrit, hval⟩ := mem_critScores.mp (pyMax_mem _ hc)
    have := hub kv hkv
    rwa [weight_of_crit hcrit, hval] at this
  have hNU : N ≤ U := by
    obtain ⟨kv, hkv, hnc, hval⟩ := mem_noncritScores.mp (pyMax_mem _ hn)
    have := hub kv hkv
    rwa [weight_of_noncrit hnc, hval, one_mul] at this
  -- U is attained at some entry, so it is bounded by the larger of the two
  have hUmax : U ≤ max (5 / 4 * C) N := by
    obtain ⟨kv, hkv, heq⟩ := hex
    by_cases hcrit : kv.1 ∈ CRITICAL_FINDINGS
    · have hmem : kv.2 ∈ critScores scores := mem_critScores.mpr ⟨kv, hkv, hcrit, rfl⟩
      have h2 : kv.2 ≤ C := le_pyMax _ _ hmem
      have : weight kv.1 * kv.2 ≤ 5 / 4 * C := by
        rw [weight_of_crit hcrit]
        exact mul_le_mul_of_nonneg_left h2 (by norm_num)
      exact heq ▸ le_trans this (le_max_left _ _)
    · have hmem : kv.2 ∈ noncritScores scores := mem_noncritScores.mpr ⟨kv, hkv, hcrit, rfl⟩
      have h2 : kv.2 ≤ N := le_pyMax _ _ hmem
      have : weight kv.1 * kv.2 ≤ N := by
        rw [weight_of_noncrit hcrit, one_mul]; exact h2
      exact heq ▸ le_trans this (le_max_right _ _)
  by_cases hlt : N < 5 / 4 * C
  · rw [if_pos hlt]
    exact le_antisymm (by rwa [max_eq_left hlt.le] at hUmax) hCU
  · rw [if_neg hlt]
    push_neg at hlt
    exact le_antisymm (by rwa [max_eq_right hlt] at hUmax) hNU

/-- **C1 witness**: a concrete map with one critical and one non-critical
finding, evaluated through the theorem. -/
theorem compute_urgency_weighted_max_witness :
    compute_urgency [("Pneumothorax", (1 : Rat)), ("Atelectasis", 2)] =
      if pyMax (noncritScores [("Pneumothorax", (1 : Rat)), ("Atelectasis", 2)]) <
          5 / 4 * pyMax (critScores [("Pneumothorax", (1 : Rat)), ("Atelectasis", 2)])
      then 5 / 4 * pyMax (critScores [("Pneumothorax", (1 : Rat)), ("Atelectasis", 2)])
      else pyMax (noncritScores [("Pneumothorax", (1 : Rat)), ("Atelectasis", 2)]) :=
  compute_urgency_weighted_max.2.2 _
    (by intro kv hkv; fin_cases hkv <;> norm_num)
    (by simp [critScores, CRITICAL_FINDINGS])
    (by simp [noncritScores, CRITICAL_FINDINGS])

/-- **C2 counterexample**: a non-empty score map whose single score is 0.0
yields urgency 0.0, so "urgency is zero iff the map is empty" fails at this
input. -/
theorem compute_urgency_zero_iff_cex :
    compute_urgency [("Atelectasis", (0 : Rat))] = 0 ∧
      [("Atelectasis", (0 : Rat))] ≠ ([] : List (String × Rat)) := by
  constructor
  · norm_num [compute_urgency, pyMax, weight, CRITICAL_FINDINGS]
  · simp

/-- **C2 (amended).** For score maps with non-negative scores,
`compute_urgency` returns 0.0 iff every score is 0.0 (in particular the
empty map yields 0.0); a non-empty map with some positive score yields a
positive urgency. -/
theorem compute_urgency_zero_iff (scores : List (String × Rat))
    (h : ∀ kv ∈ scores, 0 ≤ kv.2) :
    compute_urgency scores = 0 ↔ ∀ kv ∈ scores, kv.2 = 0 := by
  constructor
  · intro h0 kv hkv
    have hs : scores ≠ [] := by
      intro he; subst he; cases hkv
    have hub := (compute_urgency_is_max scores hs).2 kv hkv
    rw [h0] at hub
    have hge : 0 ≤ weight kv.1 * kv.2 :=
      mul_nonneg (weight_pos kv.1).le (h kv hkv)
    have : weight kv.1 * kv.2 = 0 := le_antisymm hub hge
    rcases mul_eq_zero.mp this with hw | hv
    · exact absurd hw (weight_pos kv.1).ne'
    · exact hv
  · intro hz
    cases hs : scores with
    | nil => rfl
    | cons a l =>
      rw [← hs]
      have hne : scores ≠ [] := by rw [hs]; simp
      obtain ⟨kv, hkv, heq⟩ := (compute_urgency_is_max scores hne).1
      rw [heq, hz kv hkv, mul_zero]

/-- **C2 witness**: the amended equivalence applied to a concrete map. -/
theorem compute_urgency_zero_iff_witness :
    compute_urgency [("Pneumothorax", (0 : Rat))] = 0 :=
  (compute_urgency_zero_iff [("Pneumothorax", (0 : Rat))]
      (by intro kv hkv; fin_cases hkv; norm_num)).mpr
    (by intro kv hkv; fin_cases hkv; rfl)

/-! ### Lemmas about `to_dict` -/

/-- Every `to_dict` result is a dict, the absence signal, or a value some
string strictly JSON-decodes to. -/
lemma to_dict_shape :
    ∀ v, isDict (to_dict v) = true ∨ to_dict v = vnone ∨
      ∃ s, json_loads s = some (to_dict v)
  | vobj r => to_dict_shape r
  | vdict _ => Or.inl rfl
  | vstr s => by
    cases h : json_loads s with
    | none => exact Or.inr (Or.inl (by simp [to_dict, h]))
    | some v' => exact Or.inr (Or.inr ⟨s, by simp [to_dict, h]⟩)
  | vlist _ => Or.inr (Or.inl rfl)
  | vint _ => Or.inr (Or.inl rfl)
  | vfloat _ => Or.inr (Or.inl rfl)
  | vbool _ => Or.inr (Or.inl rfl)
  | vnone => Or.inr (Or.inl rfl)
  | vother => Or.inr (Or.inl rfl)

/-- **C3 counterexample**: `_to_dict` applied to the string `"3"` — a
well-formed JSON text — returns the decoded int 3, which is neither a dict
nor the absence signal. -/
theorem to_dict_dict_or_none_cex :
    to_dict (vstr "3") = vint 3 ∧ isDict (vint 3) = false ∧ vint 3 ≠ vnone :=
  ⟨rfl, rfl, fun h => nomatch h⟩

/-- **C3 (amended).** `_to_dict` never raises and follows the stated
resolution order — recurse into a "response" attribute, return mappings
as-is, strictly JSON-decode text (absence on decode failure), absence for
everything else — and its result is always a dict or the absence signal
*except* for string inputs that strictly JSON-decode to a non-dict value,
which are returned as decoded. -/
theorem to_dict_resolution :
    (∀ r, to_dict (vobj r) = to_dict r) ∧
    (∀ es, to_dict (vdict es) = vdict es) ∧
    (∀ s, to_dict (vstr s) = (json_loads s).getD vnone) ∧
    (∀ v, hasResp v = false → isDict v = false → isStr v = false →
      to_dict v = vnone) ∧
    (∀ v, isDict (to_dict v) = true ∨ to_dict v = vnone ∨
      ∃ s, json_loads s = some (to_dict v)) := by
  refine ⟨fun _ => rfl, fun _ => rfl, fun _ => rfl, ?_, to_dict_shape⟩
  intro v hr hd hs
  cases v
  case vdict => simp [isDict] at hd
  case vstr => simp [isStr] at hs
  case vobj => simp [hasResp] at hr
  all_goals rfl

/-- **C3 witness**: the "anything else" branch of the resolution order at a
concrete non-object, non-dict, non-string input. -/
theorem to_dict_resolution_witness : to_dict (vint 7) = vnone :=
  to_dict_resolution.2.2.2.1 (vint 7) rfl rfl rfl

/-- **C7 counterexample**: `_to_dict` is not idempotent at the string
`"3"`: one application yields the int 3, a second application turns it
into the absence signal. -/
theorem to_dict_idempotent_cex :
    to_dict (to_dict (vstr "3")) ≠ to_dict (vstr "3") := fun h => nomatch h

/-- **C7 (amended).** `_to_dict` (a pure function in this model, hence
side-effect-free) is idempotent on every input whose normalization yields
a dict or the absence signal — that is, on all inputs except strings that
strictly JSON-decode to a non-dict, non-null value. -/
theorem to_dict_idempotent (v : PyVal)
    (h : isDict (to_dict v) = true ∨ to_dict v = vnone) :
    to_dict (to_dict v) = to_dict v := by
  rcases h with h | h
  · cases hv : to_dict v with
    | vdict es => rfl
    | vlist _ => rw [hv] at h; simp [isDict] at h
    | vstr _ => rw [hv] at h; simp [isDict] at h
    | vint _ => rw [hv] at h; simp [isDict] at h
    | vfloat _ => rw [hv] at h; simp [isDict] at h
    | vbool _ => rw [hv] at h; simp [isDict] at h
    | vnone => rw [hv] at h; simp [isDict] at h
    | vobj _ => rw [hv] at h; simp [isDict] at h
    | vother => rw [hv] at h; simp [isDict] at h
  · rw [h]; rfl

/-- **C7 witness**: idempotence applied to a wrapped reply object whose
normalization is a dict. -/
theorem to_dict_idempotent_witness :
    to_dict (to_dict (vobj (vdict [("score", vint 1)]))) =
      to_dict (vobj (vdict [("score", vint 1)])) :=
  to_dict_idempotent _ (Or.inl rfl)

/-! ### Claims about `_extract_score` -/

/-- **C4.** On a normalized payload, `_extract_score` returns a top-level
numeric "score" as a float; with no top-level numeric "score", it returns a
numeric "score" found inside a dict-valued "response" member; with neither,
it returns absence.  (Numeric is the source's test
`isinstance(x, (int, float))`, under which Python bools also pass.) -/
theorem extract_score_spec (entries : List (String × PyVal)) :
    (∀ v, List.lookup "score" entries = some v → isNum v = true →
      extract_score entries = some (toF v)) ∧
    (topNum entries = false →
      ∀ inner v, List.lookup "response" entries = some (vdict inner) →
        List.lookup "score" inner = some v → isNum v = true →
        extract_score entries = some (toF v)) ∧
    (topNum entries = false → nestedNum entries = false →
      extract_score entries = none) := by
  refine ⟨?_, ?_, ?_⟩
  · intro v hv hn
    simp [extract_score, hv, hn]
  · intro ht inner v hresp hv hn
    have hnest : extractNested entries = some (toF v) := by
      simp [extractNested, hresp, hv, hn]
    unfold extract_score
    cases hs : List.lookup "score" entries with
    | none => simpa [hs] using hnest
    | some w =>
      have hw : isNum w = false := by
        have := ht
        simpa [topNum, hs] using this
      simpa [hs, hw] using hnest
  · intro ht hn
    have hnest : extractNested entries = none := by
      unfold extractNested
      cases hresp : List.lookup "response" entries with
      | none => rfl
      | some w =>
        cases w with
        | vdict inner =>
          have hti : topNum inner = false := by
            simpa [nestedNum, hresp] using hn
          unfold topNum at hti
          cases hsi : List.lookup "score" inner with
          | none => simp [hsi]
          | some u =>
            rw [hsi] at hti
            simp [hsi]
            exact hti
        | vlist _ => rfl
        | vstr _ => rfl
        | vint _ => rfl
        | vfloat _ => rfl
        | vbool _ => rfl
        | vnone => rfl
        | vobj _ => rfl
        | vother => rfl
    unfold extract_score
    cases hs : List.lookup "score" entries with
    | none => simpa [hs] using hnest
    | some w =>
      have hw : isNum w = false := by simpa [topNum, hs] using ht
      simpa [hs, hw] using hnest

/-- **C4 witness**: extraction of a concrete top-level int score. -/
theorem extract_score_spec_witness :
    extract_score [("score", vint 3)] = some (toF (vint 3)) :=
  (extract_score_spec [("score", vint 3)]).1 (vint 3) rfl rfl

/-- **C10.** A boolean "score" passes the numeric test (Python bools are
ints): `True` extracts as 1.0 and `False` as 0.0, at top level or nested
under a dict "response" member. -/
theorem extract_score_bool (entries : List (String × PyVal)) (b : Bool) :
    (List.lookup "score" entries = some (vbool b) →
      extract_score entries = some (if b then 1 else 0)) ∧
    (List.lookup "score" entries = none →
      ∀ inner, List.lookup "response" entries = some (vdict inner) →
        List.lookup "score" inner = some (vbool b) →
        extract_score entries = some (if b then 1 else 0)) := by
  constructor
  · intro hv
    simpa [toF] using (extract_score_spec entries).1 (vbool b) hv rfl
  · intro hs inner hresp hv
    have ht : topNum entries = false := by simp [topNum, hs]
    simpa [toF] using
      (extract_score_spec entries).2.1 ht inner (vbool b) hresp hv rfl

/-- **C10 witness**: a boolean True score extracts as 1.0. -/
theorem extract_score_bool_witness :
    extract_score [("score", vbool true)] = some 1 := by
  simpa using (extract_score_bool [("score", vbool true)] true).1 rfl

/-! ### Claim about `add_image` (C5) -/

/-- **C5.** When every call-signature variant either succeeds or raises a
signature-mismatch `TypeError`, `add_image` attempts the variants in the
order positional, keyword "data", keyword "image_bytes" (at most the three,
never a fourth), stops at the first success, succeeds iff some variant
succeeds, and raises iff all three variants fail. -/
theorem add_image_fallback (call : UStyle → UOutcome)
    (h : ∀ s, isRO (call s) = false) :
    ((add_image call).1.length ≤ 3 ∧
      (add_image call).1 = styleOrder.take (add_image call).1.length) ∧
    ((add_image call).2 = .success ↔ ∃ s, isOk (call s) = true) ∧
    (isOk (call .positional) = true →
      add_image call = ([.positional], .success)) ∧
    (isTE (call .positional) = true → isOk (call .kwData) = true →
      add_image call = ([.positional, .kwData], .success)) ∧
    (isTE (call .positional) = true → isTE (call .kwData) = true →
      isOk (call .kwImageBytes) = true →
      add_image call = (styleOrder, .success)) ∧
    (isTE (call .positional) = true → isTE (call .kwData) = true →
      isTE (call .kwImageBytes) = true →
      (add_image call).1 = styleOrder ∧
        isRuntimeErr (add_image call).2 = true) := by
  have h1 := h .positional
  have h2 := h .kwData
  have h3 := h .kwImageBytes
  cases hc1 : call .positional with
  | raiseOther m => rw [hc1] at h1; simp [isRO] at h1
  | ok =>
    have hadd : add_image call = ([.positional], .success) := by
      simp [add_image, hc1]
    rw [hadd]
    refine ⟨by simp [styleOrder], ?_, fun _ => rfl, ?_, ?_, ?_⟩
    · exact ⟨fun _ => ⟨.positional, by simp [hc1, isOk]⟩, fun _ => rfl⟩
    · intro hte _; simp [isTE] at hte
    · intro hte _ _; simp [isTE] at hte
    · intro hte _ _; simp [isTE] at hte
  | typeError e1 =>
    cases hc2 : call .kwData with
    | raiseOther m => rw [hc2] at h2; simp [isRO] at h2
    | ok =>
      have hadd : add_image call = ([.positional, .kwData], .success) := by
        simp [add_image, hc1, hc2]
      rw [hadd]
      refine ⟨by simp [styleOrder], ?_, ?_, fun _ _ => rfl, ?_, ?_⟩
      · exact ⟨fun _ => ⟨.kwData, by simp [hc2, isOk]⟩, fun _ => rfl⟩
      · intro hok; simp [isOk] at hok
      · intro _ hte _; simp [isTE] at hte
      · intro _ hte _; simp [isTE] at hte
    | typeError e2 =>
      cases hc3 : call .kwImageBytes with
      | raiseOther m => rw [hc3] at h3; simp [isRO] at h3
      | ok =>
        have hadd : add_image call = (styleOrder, .success) := by
          simp [add_image, hc1, hc2, hc3, styleOrder]
        rw [hadd]
        refine ⟨by simp [styleOrder], ?_, ?_, ?_, fun _ _ _ => rfl, ?_⟩
        · exact ⟨fun _ => ⟨.kwImageBytes, by simp [hc3, isOk]⟩, fun _ => rfl⟩
        · intro hok; simp [isOk] at hok
        · intro _ hok; simp [isOk] at hok
        · intro _ _ hte; simp [isTE] at hte
      | typeError e3 =>
        have hadd : add_image call =
            (styleOrder,
             .runtimeError ("add_study_image signature not recognized: " ++ e3)) := by
          simp [add_image, hc1, hc2, hc3, styleOrder]
        rw [hadd]
        refine ⟨by simp [styleOrder], ?_, ?_, ?_, ?_,
          fun _ _ _ => ⟨rfl, rfl⟩⟩
        · constructor
          · intro hh; exact absurd hh (by simp)
          · rintro ⟨s, hs⟩
            cases s with
            | positional => rw [hc1] at hs; simp [isOk] at hs
            | kwData => rw [hc2] at hs; simp [isOk] at hs
            | kwImageBytes => rw [hc3] at hs; simp [isOk] at hs
        · intro hok; simp [isOk] at hok
        · intro _ hok; simp [isOk] at hok
        · intro _ _ hok; simp [isOk] at hok

/-- **C5 witness**: the spec's stub — signature-mismatch on the first two
styles, success on the third — goes through all three attempted styles and
succeeds. -/
theorem add_image_fallback_witness :
    add_image stubUpload = (styleOrder, .success) :=
  (add_image_fallback stubUpload (fun s => by cases s <;> rfl)).2.2.2.2.1
    rfl rfl rfl

/-! ### Claim about `extract_keywords` (C8) -/

lemma lexLe_total : ∀ as bs : List Char, lexLe as bs = true ∨ lexLe bs as = true := by
  intro as
  induction as with
  | nil => intro bs; exact Or.inl rfl
  | cons a as ih =>
    intro bs
    cases bs with
    | nil => exact Or.inr rfl
    | cons b bs =>
      rcases Nat.lt_trichotomy a.toNat b.toNat with h | h | h
      · left; simp [lexLe, h]
      · rcases ih bs with h' | h'
        · left; simp [lexLe, h, h']
        · right; simp [lexLe, h.symm, h']
      · right; simp [lexLe, h]

lemma lexLe_trans :
    ∀ as bs cs : List Char,
      lexLe as bs = true → lexLe bs cs = true → lexLe as cs = true := by
  intro as
  induction as with
  | nil => intro bs cs _ _; rfl
  | cons a as ih =>
    intro bs cs h1 h2
    cases bs with
    | nil => simp [lexLe] at h1
    | cons b bs =>
      cases cs with
      | nil => simp [lexLe] at h2
      | cons c cs =>
        simp only [lexLe, Bool.or_eq_true, Bool.and_eq_true,
          decide_eq_true_eq] at h1 h2 ⊢
        rcases h1 with h1 | ⟨h1e, h1r⟩ <;> rcases h2 with h2 | ⟨h2e, h2r⟩
        · left; omega
        · left; omega
        · left; omega
        · right; exact ⟨by omega, ih bs cs h1r h2r⟩

/-- **C8.** `extract_keywords` scans the lower-cased narrative for the fixed
clinical vocabulary with word-boundary matching and returns exactly the
matched terms, deduplicated and sorted: the result is sorted and
duplicate-free, a term is in it if and only if it is a vocabulary term
matching the narrative with word boundaries; the empty narrative yields
`[]`, and the narrative
"Findings consistent with pneumothorax and pleural effusion." yields
exactly `["effusion", "pneumothorax"]`. -/
theorem extract_keywords_spec :
    extract_keywords "" = [] ∧
    extract_keywords "Findings consistent with pneumothorax and pleural effusion." =
      ["effusion", "pneumothorax"] ∧
    (∀ t, List.Sorted (fun a b => strLe a b = true) (extract_keywords t)) ∧
    (∀ t, (extract_keywords t).Nodup) ∧
    (∀ t k, k ∈ extract_keywords t →
      k ∈ KEYWORDS ∧ wbSearch k.data none (lowerStr t).data = true) ∧
    (∀ t k, k ∈ KEYWORDS → wbSearch k.data none (lowerStr t).data = true →
      k ∈ extract_keywords t) := by
  haveI hTot : IsTotal String (fun a b => strLe a b = true) :=
    ⟨fun a b => lexLe_total a.data b.data⟩
  haveI hTrans : IsTrans String (fun a b => strLe a b = true) :=
    ⟨fun a b c => lexLe_trans a.data b.data c.data⟩
  refine ⟨rfl, rfl, ?_, ?_, ?_, ?_⟩
  · intro t
    by_cases h : t = ""
    · simp [extract_keywords, h]
    · simp only [extract_keywords, if_neg h]
      exact List.sorted_insertionSort _ _
  · intro t
    by_cases h : t = ""
    · simp [extract_keywords, h]
    · simp only [extract_keywords, if_neg h]
      exact ((List.perm_insertionSort _ _).nodup_iff).mpr (List.nodup_dedup _)
  · intro t k hk
    by_cases h : t = ""
    · rw [h] at hk; simp [extract_keywords] at hk
    · simp only [extract_keywords, if_neg h] at hk
      have hk' := ((List.perm_insertionSort _ _).mem_iff).mp hk
      rw [List.mem_dedup] at hk'
      exact List.mem_filter.mp hk'
  · -- completeness: every matching vocabulary term is returned
    intro t k hk hw
    by_cases h : t = ""
    · -- no non-empty pattern matches the empty narrative
      exfalso
      subst h
      fin_cases hk <;> exact Bool.noConfusion hw
    · simp only [extract_keywords, if_neg h]
      exact ((List.perm_insertionSort _ _).mem_iff).mpr
        (List.mem_dedup.mpr (List.mem_filter.mpr ⟨hk, hw⟩))

/-- **C8 witness**: membership in the concrete result, pushed through the
characterization of hits. -/
theorem extract_keywords_spec_witness :
    "effusion" ∈ KEYWORDS ∧
      wbSearch "effusion".data none
        (lowerStr "Findings consistent with pneumothorax and pleural effusion.").data =
        true :=
  extract_keywords_spec.2.2.2.2.1
    "Findings consistent with pneumothorax and pleural effusion." "effusion"
    (by rw [extract_keywords_spec.2.1]; exact List.mem_cons_self _ _)

/-! ### Equivalence of the simple and debug classifier loops (C9) -/

/-- On a returned reply, the guarded extraction of `run_classifiers`
(truthiness test, then `_extract_score` with exceptions swallowed) computes
the same score as the `run_classifiers_with_payload` form (`or {}` default,
`isinstance(payload, dict)` guard). -/
lemma simpleStep_ok_eq (resp : PyVal) :
    simpleStep (Except.ok resp) =
      (match pyOr (pyOr (to_dict resp) (to_dict (getattrResp resp))) (vdict []) with
       | vdict es => extract_score es
       | _ => none) := by
  simp only [simpleStep, classifierTryBody]
  generalize pyOr (to_dict resp) (to_dict (getattrResp resp)) = p
  cases p with
  | vdict es =>
    cases es with
    | nil => rfl
    | cons e es => rfl
  | vlist xs =>
    cases xs with
    | nil => rfl
    | cons x xs =>
      show (match extractChecked (vlist (x :: xs)) with
            | .error _ => none
            | .ok s => s) = none
      simp only [extractChecked]
      split_ifs <;> rfl
  | vstr s =>
    by_cases hs : s = ""
    · subst hs; rfl
    · have ht : truthy (vstr s) = true := by simp [truthy, hs]
      simp only [ht, if_true, extractChecked]
      split_ifs <;> simp [pyOr, ht]
  | vint n =>
    by_cases hn : n = 0
    · subst hn; rfl
    · have ht : truthy (vint n) = true := by simp [truthy, hn]
      simp only [ht, if_true, extractChecked]
      simp [pyOr, ht]
  | vfloat q =>
    by_cases hq : q = 0
    · subst hq; rfl
    · have ht : truthy (vfloat q) = true := by simp [truthy, hq]
      simp only [ht, if_true, extractChecked]
      simp [pyOr, ht]
  | vbool b => cases b <;> rfl
  | vnone => rfl
  | vobj r => rfl
  | vother => rfl

/-- One loop step of the debug variant scores exactly as the simple one. -/
lemma payloadFold_fst (call : String → CallResult) (nm : String × Option String)
    (sc : List (String × Rat)) (pl : List (String × PyVal)) :
    (payloadFold call (sc, pl) nm).1 = simpleFold call sc nm := by
  obtain ⟨name, mid?⟩ := nm
  unfold payloadFold simpleFold
  cases mid? with
  | none => rfl
  | some mid =>
    by_cases hmid : mid = ""
    · simp [hmid]
    · simp only [hmid, if_false]
      cases hc : call name with
      | error e => simp [simpleStep, classifierTryBody]
      | ok resp => rw [simpleStep_ok_eq resp]

/-- Folding both loops from related accumulators keeps the scores equal. -/
lemma foldl_payload_fst :
    ∀ (models : List (String × Option String)) (call : String → CallResult)
      (sc : List (String × Rat)) (pl : List (String × PyVal)),
      (models.foldl (payloadFold call) (sc, pl)).1 =
        models.foldl (simpleFold call) sc := by
  intro models call
  induction models with
  | nil => intro sc pl; rfl
  | cons nm ms ih =>
    intro sc pl
    simp only [List.foldl_cons]
    calc (List.foldl (payloadFold call) (payloadFold call (sc, pl) nm) ms).1
        = (List.foldl (payloadFold call)
            ((payloadFold call (sc, pl) nm).1, (payloadFold call (sc, pl) nm).2)
            ms).1 := rfl
      _ = List.foldl (simpleFold call) (payloadFold call (sc, pl) nm).1 ms :=
        ih _ _
      _ = List.foldl (simpleFold call) (simpleFold call sc nm) ms := by
        rw [payloadFold_fst]

/-- After any dict insertion, the inserted key — and every key that was
already present — is still present. -/
lemma isSome_lookup_dictInsert {α : Type} (es : List (String × α))
    (k name : String) (v : α)
    (h : (List.lookup name es).isSome = true ∨ k = name) :
    (List.lookup name (dictInsert es k v)).isSome = true := by
  by_cases hk : k = name
  · subst hk; rw [lookup_dictInsert_self]; rfl
  · rcases h with h | h
    · rw [lookup_dictInsert_ne _ _ _ _ hk]; exact h
    · exact absurd h hk

/-- One debug-loop step never deletes an existing payload record. -/
lemma payloadFold_snd_isSome (call : String → CallResult)
    (acc : List (String × Rat) × List (String × PyVal))
    (nm : String × Option String) (name : String)
    (h : (List.lookup name acc.2).isSome = true) :
    (List.lookup name (payloadFold call acc nm).2).isSome = true := by
  obtain ⟨n, mid?⟩ := nm
  unfold payloadFold
  cases mid? with
  | none => exact h
  | some mid =>
    by_cases hmid : mid = ""
    · simp only [hmid, if_true]; exact h
    · simp only [hmid, if_false]
      cases hc : call n with
      | error e => exact isSome_lookup_dictInsert _ _ _ _ (Or.inl h)
      | ok resp => exact isSome_lookup_dictInsert _ _ _ _ (Or.inl h)

/-- Every finding with a truthy model id still to be processed (or already
recorded) ends up with a payload record. -/
lemma foldl_payload_records :
    ∀ (models : List (String × Option String)) (call : String → CallResult)
      (acc : List (String × Rat) × List (String × PyVal)) (name mid : String),
      ((name, some mid) ∈ models ∧ mid ≠ "") ∨
        (List.lookup name acc.2).isSome = true →
      (List.lookup name (models.foldl (payloadFold call) acc).2).isSome = true := by
  intro models call
  induction models with
  | nil =>
    intro acc name mid h
    rcases h with ⟨hmem, _⟩ | h
    · cases hmem
    · exact h
  | cons nm ms ih =>
    intro acc name mid h
    simp only [List.foldl_cons]
    rcases h with ⟨hmem, hmid⟩ | h
    · rcases List.mem_cons.mp hmem with heq | hmem'
      · -- this very step records `name`
        refine ih _ name mid (Or.inr ?_)
        rw [← heq]
        unfold payloadFold
        simp only [hmid, if_false]
        cases hc : call name with
        | error e => exact isSome_lookup_dictInsert _ _ _ _ (Or.inr rfl)
        | ok resp => exact isSome_lookup_dictInsert _ _ _ _ (Or.inr rfl)
      · exact ih _ name mid (Or.inl ⟨hmem', hmid⟩)
    · exact ih _ name mid (Or.inr (payloadFold_snd_isSome call acc nm name h))

/-- **C9.** For every model table and every fixed behaviour of the remote
per-finding calls, `run_classifiers` returns exactly the score-map
component of `run_classifiers_with_payload`, and the debug variant adds a
per-finding payload/error record for every processed finding — it never
changes which findings are scored or their values. -/
theorem run_classifiers_refines_payload
    (models : List (String × Option String)) (call : String → CallResult) :
    run_classifiers models call = (run_classifiers_with_payload models call).1 ∧
    ∀ name mid, (name, some mid) ∈ models → mid ≠ "" →
      (List.lookup name
        (run_classifiers_with_payload models call).2).isSome = true :=
  ⟨(foldl_payload_fst models call [] []).symm,
   fun name mid hmem hmid =>
     foldl_payload_records models call ([], []) name mid (Or.inl ⟨hmem, hmid⟩)⟩

/-- **C9 witness**: on a one-entry table whose call raises, the score map is
recorded empty while the error record for the finding is present. -/
theorem run_classifiers_refines_payload_witness :
    run_classifiers [("Pneumothorax", some "m1")] (fun _ => Except.error "boom") =
      (run_classifiers_with_payload [("Pneumothorax", some "m1")]
        (fun _ => Except.error "boom")).1 ∧
    (List.lookup "Pneumothorax"
      (run_classifiers_with_payload [("Pneumothorax", some "m1")]
        (fun _ => Except.error "boom")).2).isSome = true :=
  ⟨(run_classifiers_refines_payload [("Pneumothorax", some "m1")]
      (fun _ => Except.error "boom")).1,
   (run_classifiers_refines_payload [("Pneumothorax", some "m1")]
      (fun _ => Except.error "boom")).2 "Pneumothorax" "m1"
     (List.mem_cons_self _ _) (by decide)⟩


/-! ### Per-model failure isolation (C6) -/

/-- A finding whose remote call raises is never added to the score map. -/
lemma foldl_simple_error_absent :
    ∀ (models : List (String × Option String)) (call : String → CallResult)
      (name : String) (e : String), call name = Except.error e →
      ∀ sc : List (String × Rat), List.lookup name sc = none →
        List.lookup name (models.foldl (simpleFold call) sc) = none := by
  intro models call name e hcall
  induction models with
  | nil => intro sc hsc; exact hsc
  | cons nm ms ih =>
    intro sc hsc
    simp only [List.foldl_cons]
    refine ih _ ?_
    obtain ⟨n, mid?⟩ := nm
    unfold simpleFold
    cases mid? with
    | none => exact hsc
    | some mid =>
      by_cases hmid : mid = ""
      · simp only [hmid, if_true]; exact hsc
      · simp only [hmid, if_false]
        by_cases hn : n = name
        · subst hn
          rw [hcall]
          simpa [simpleStep, classifierTryBody] using hsc
        · cases hs : simpleStep (call n) with
          | none => exact hsc
          | some s =>
            show List.lookup name (dictInsert sc n s) = none
            rw [lookup_dictInsert_ne sc n name s hn]
            exact hsc

/-- Scores of other findings do not depend on one finding's behaviour. -/
lemma foldl_simple_local :
    ∀ (models : List (String × Option String)) (c1 c2 : String → CallResult)
      (name : String), (∀ n, n ≠ name → c1 n = c2 n) →
      ∀ (n' : String), n' ≠ name →
      ∀ (sc1 sc2 : List (String × Rat)),
        List.lookup n' sc1 = List.lookup n' sc2 →
        List.lookup n' (models.foldl (simpleFold c1) sc1) =
          List.lookup n' (models.foldl (simpleFold c2) sc2) := by
  intro models c1 c2 name hagree n' hn'
  induction models with
  | nil => intro sc1 sc2 h; exact h
  | cons nm ms ih =>
    intro sc1 sc2 h
    simp only [List.foldl_cons]
    refine ih _ _ ?_
    obtain ⟨n, mid?⟩ := nm
    unfold simpleFold
    cases mid? with
    | none => exact h
    | some mid =>
      by_cases hmid : mid = ""
      · simp only [hmid, if_true]; exact h
      · simp only [hmid, if_false]
        by_cases hnn : n = name
        · -- the distinguished finding: its insertions never touch n'
          subst hnn
          have hne : n ≠ n' := Ne.symm hn'
          cases hs1 : simpleStep (c1 n) with
          | none =>
            cases hs2 : simpleStep (c2 n) with
            | none => exact h
            | some s2 =>
              show List.lookup n' sc1 = List.lookup n' (dictInsert sc2 n s2)
              rw [lookup_dictInsert_ne sc2 n n' s2 hne]
              exact h
          | some s1 =>
            cases hs2 : simpleStep (c2 n) with
            | none =>
              show List.lookup n' (dictInsert sc1 n s1) = List.lookup n' sc2
              rw [lookup_dictInsert_ne sc1 n n' s1 hne]
              exact h
            | some s2 =>
              show List.lookup n' (dictInsert sc1 n s1) =
                List.lookup n' (dictInsert sc2 n s2)
              rw [lookup_dictInsert_ne sc1 n n' s1 hne,
                lookup_dictInsert_ne sc2 n n' s2 hne]
              exact h
        · -- any other finding behaves identically under both calls
          rw [hagree n hnn]
          cases hs : simpleStep (c2 n) with
          | none => exact h
          | some s =>
            show List.lookup n' (dictInsert sc1 n s) =
              List.lookup n' (dictInsert sc2 n s)
            by_cases hne : n = n'
            · subst hne
              rw [lookup_dictInsert_self, lookup_dictInsert_self]
            · rw [lookup_dictInsert_ne sc1 n n' s hne,
                lookup_dictInsert_ne sc2 n n' s hne]
              exact h

/-- A findings record with no string "findings" field, at top level or
nested under a dict "response", yields the empty narrative. -/
lemma vlmFindings_empty (es : List (String × PyVal))
    (hf : hasFindingsStr es = false) (hnf : hasNestedFindingsStr es = false) :
    vlmFindings es = "" := by
  unfold vlmFindings
  split
  · next s heq =>
    simp [hasFindingsStr, heq] at hf
  · split
    · next inner heq2 =>
      split
      · next s3 heq3 =>
        simp [hasNestedFindingsStr, heq2, hasFindingsStr, heq3] at hnf
      · rfl
    · rfl

/-- **C6.** Per-model failures are non-fatal and isolated: a finding whose
remote call raises is simply absent from the map `run_classifiers` returns,
other findings' scores are unaffected by it, and `run_vlm` returns the
empty string (rather than raising) on a raised call, a non-dict payload, or
an absent/non-string "findings" field. -/
theorem per_model_failure_non_fatal :
    (∀ (models : List (String × Option String)) (call : String → CallResult)
      (name : String) (e : String), call name = Except.error e →
      List.lookup name (run_classifiers models call) = none) ∧
    (∀ (models : List (String × Option String))
      (c1 c2 : String → CallResult) (name : String),
      (∀ n, n ≠ name → c1 n = c2 n) →
      ∀ n', n' ≠ name →
        List.lookup n' (run_classifiers models c1) =
          List.lookup n' (run_classifiers models c2)) ∧
    (∀ e, run_vlm (Except.error e) = "") ∧
    (∀ resp es,
      pyOr (to_dict resp) (to_dict (getattrResp resp)) = vdict es →
      hasFindingsStr es = false → hasNestedFindingsStr es = false →
      run_vlm (Except.ok resp) = "") ∧
    (∀ resp,
      isDict (pyOr (to_dict resp) (to_dict (getattrResp resp))) = false →
      run_vlm (Except.ok resp) = "") := by
  refine ⟨?_, ?_, fun _ => rfl, ?_, ?_⟩
  · intro models call name e hcall
    exact foldl_simple_error_absent models call name e hcall [] rfl
  · intro models c1 c2 name hagree n' hn'
    exact foldl_simple_local models c1 c2 name hagree n' hn' [] [] rfl
  · intro resp es hp hf hnf
    show (match pyOr (to_dict resp) (to_dict (getattrResp resp)) with
          | vdict es' => vlmFindings es'
          | _ => "") = ""
    rw [hp]
    exact vlmFindings_empty es hf hnf
  · intro resp hd
    show (match pyOr (to_dict resp) (to_dict (getattrResp resp)) with
          | vdict es' => vlmFindings es'
          | _ => "") = ""
    cases hp : pyOr (to_dict resp) (to_dict (getattrResp resp)) with
    | vdict es => rw [hp] at hd; simp [isDict] at hd
    | vlist _ => rfl
    | vstr _ => rfl
    | vint _ => rfl
    | vfloat _ => rfl
    | vbool _ => rfl
    | vnone => rfl
    | vobj _ => rfl
    | vother => rfl

/-- **C6 witness**: with every remote call raising, the full finding table
produces a map in which "Pneumothorax" is absent. -/
theorem per_model_failure_non_fatal_witness :
    List.lookup "Pneumothorax"
      (run_classifiers FINDING_MODELS (fun _ => Except.error "boom")) = none :=
  per_model_failure_non_fatal.1 FINDING_MODELS (fun _ => Except.error "boom")
    "Pneumothorax" "boom" rfl

end InsightRay
